import Mathlib

/-!
Shallow embedding of the pocl CUDA device driver
(lib/CL/devices/cuda/pocl-cuda.c) and verification of the specified
properties of its memory management, copy engine, kernel artifact loader
and kernel-argument marshaling.

Modelling conventions:
* Host and device addresses are natural numbers; a nullable pointer is an
  `Option Nat` with `none` playing the role of `NULL`.
* Every CUDA driver call (and the libc `malloc`/`free` calls of the
  map/unmap paths) is recorded in a trace of `Action`s, so that theorems
  can speak about which driver calls an operation performs.
* Driver-call results that the code branches on are supplied by explicit
  oracle structures (one field per call site), so a run of an operation is
  a pure function of its inputs and the oracle.
* `POCL_ABORT` / `CUDA_CHECK` failure is the `abort` constructor of each
  outcome type.
* The `__arm__`-conditional variants are not modelled; the embedding
  follows the general (non-ARM) compilation of the file.
-/

namespace PoclCuda

/-- Driver result as far as the embedded code distinguishes it: success,
the tolerated `CUDA_ERROR_HOST_MEMORY_ALREADY_REGISTERED` result of
`cuMemHostRegister`, or any other (error) result. -/
inductive CUresult where
  | success
  | alreadyRegistered
  | otherError
deriving DecidableEq, Repr

/-- One recorded driver (or libc allocation) call, with its arguments. -/
inductive Action where
  | memAlloc (size : Nat)
  | memHostRegister (host : Option Nat) (size : Nat)
  | memHostGetDevicePointer (host : Option Nat)
  | memHostAlloc (size : Nat)
  | memcpyHtoD (dst : Nat) (src : Option Nat) (size : Nat)
  | memcpyDtoH (dst : Nat) (src : Nat) (size : Nat)
  | memcpyDtoD (dst : Nat) (src : Nat) (size : Nat)
  | memFree (ptr : Option Nat)
  | memFreeHost (ptr : Option Nat)
  | hostMalloc (size : Nat)
  | hostFree (ptr : Nat)
deriving DecidableEq, Repr

/-- One entry of a memory object's `device_ptrs` array
(`pocl_mem_identifier`): a device pointer and the id of the global memory
region it was allocated in. -/
structure MemSlot where
  mem_ptr : Option Nat
  global_mem_id : Nat
deriving DecidableEq, Repr

/-- The allocation-policy bits of `cl_mem_flags` that the driver reads. -/
structure MemFlags where
  use_host_ptr : Bool
  alloc_host_ptr : Bool
  copy_host_ptr : Bool
deriving DecidableEq, Repr

/-- The fields of `cl_mem` that the driver reads or writes: size, flags,
the object's own host pointer and the per-index `device_ptrs` slots. -/
structure MemObj where
  size : Nat
  flags : MemFlags
  mem_host_ptr : Option Nat
  device_ptrs : List MemSlot
deriving DecidableEq, Repr

/-- The fields of `cl_device_id` that the driver reads: the device's own
index and the id of the global memory region it belongs to. -/
structure Device where
  dev_id : Nat
  global_mem_id : Nat
deriving DecidableEq, Repr

/-- Read `mem_obj->device_ptrs[i]` (out-of-range reads yield an empty
slot; theorems carry the in-range bounds where they matter). -/
def slotAt (m : MemObj) (i : Nat) : MemSlot :=
  m.device_ptrs.getD i ⟨none, 0⟩

/-- Bytes of a flat address space (host and device addresses together). -/
def Mem : Type := Nat → Nat

/-- Effect of copying `n` bytes from address `src` to address `dst`. -/
def copyBytes (dst src n : Nat) (m : Mem) : Mem :=
  fun a => if dst ≤ a ∧ a < dst + n then m (src + (a - dst)) else m a

/-- Semantics of one action on the byte store: the three memcpy variants
move bytes, every other action leaves the store unchanged. -/
def applyAction (act : Action) (m : Mem) : Mem :=
  match act with
  | Action.memcpyHtoD dst (some src) n => copyBytes dst src n m
  | Action.memcpyDtoH dst src n => copyBytes dst src n m
  | Action.memcpyDtoD dst src n => copyBytes dst src n m
  | _ => m

/-- Semantics of a trace of actions, applied left to right. -/
def applyActions (l : List Action) (m : Mem) : Mem :=
  l.foldl (fun m a => applyAction a m) m

/-- OpenCL status code `CL_SUCCESS`. -/
def CL_SUCCESS : Int := 0

/-- OpenCL status code `CL_MEM_OBJECT_ALLOCATION_FAILURE`. -/
def CL_MEM_OBJECT_ALLOCATION_FAILURE : Int := -4

/-- Oracle for the driver calls of `pocl_cuda_alloc_mem_obj`: the result
of each call site, and the values a successful call produces. -/
structure AllocOracle where
  hostRegister : CUresult
  hostGetDevPtrOk : Bool
  hostAllocOk : Bool
  memAllocOk : Bool
  copyOk : Bool
  fresh_dev_ptr : Nat
  fresh_host_ptr : Nat
deriving DecidableEq, Repr

/-- Outcome of `pocl_cuda_alloc_mem_obj`: an aborted process, or a
returned status code together with the updated memory object and the
trace of driver calls made. -/
inductive AllocOutcome where
  | abort
  | ret (code : Int) (obj : MemObj) (calls : List Action)
deriving DecidableEq, Repr

/-- Write the freshly obtained device pointer `b` into the global-memory
region's slot: `device_ptrs[r] = { mem_ptr = b, global_mem_id = r }`. -/
def recordSlot (m : MemObj) (r : Nat) (b : Nat) : MemObj :=
  { m with device_ptrs := m.device_ptrs.set r ⟨some b, r⟩ }

/-- The unconditional tail of `pocl_cuda_alloc_mem_obj`: copy the already
allocated global-mem slot into the device's own slot
(`device_ptrs[dev_id] = device_ptrs[global_mem_id]`). -/
def copyRegionSlot (m : MemObj) (device : Device) : MemObj :=
  { m with
    device_ptrs := m.device_ptrs.set device.dev_id (slotAt m device.global_mem_id) }

/-- Shared tail of the allocation paths of `pocl_cuda_alloc_mem_obj`:
the optional eager `CL_MEM_COPY_HOST_PTR` copy (fatal on failure), then
recording the region slot and copying it into the device's slot. -/
def allocFinish (o : AllocOracle) (device : Device) (host_ptr : Option Nat)
    (m : MemObj) (b : Nat) (calls : List Action) : AllocOutcome :=
  if m.flags.copy_host_ptr then
    if o.copyOk = false then AllocOutcome.abort
    else
      AllocOutcome.ret CL_SUCCESS
        (copyRegionSlot (recordSlot m device.global_mem_id b) device)
        (calls ++ [Action.memcpyHtoD b host_ptr m.size])
  else
    AllocOutcome.ret CL_SUCCESS
      (copyRegionSlot (recordSlot m device.global_mem_id b) device) calls

/-- Embedding of `pocl_cuda_alloc_mem_obj` (non-ARM): if the global-mem
region has no device pointer yet, allocate along the path selected by the
flags (page-lock registration for `CL_MEM_USE_HOST_PTR`, page-locked host
allocation for `CL_MEM_ALLOC_HOST_PTR`, otherwise plain `cuMemAlloc`,
whose failure alone is returned as `CL_MEM_OBJECT_ALLOCATION_FAILURE`),
then record the region slot; in every case finish by copying the region
slot into the device's own slot. -/
def pocl_cuda_alloc_mem_obj (o : AllocOracle) (device : Device) (mem_obj : MemObj)
    (host_ptr : Option Nat) : AllocOutcome :=
  if (slotAt mem_obj device.global_mem_id).mem_ptr = none then
    if mem_obj.flags.use_host_ptr then
      if o.hostRegister = CUresult.otherError then AllocOutcome.abort
      else if o.hostGetDevPtrOk = false then AllocOutcome.abort
      else
        allocFinish o device host_ptr mem_obj o.fresh_dev_ptr
          [Action.memHostRegister host_ptr mem_obj.size,
           Action.memHostGetDevicePointer host_ptr]
    else if mem_obj.flags.alloc_host_ptr then
      if o.hostAllocOk = false then AllocOutcome.abort
      else if o.hostGetDevPtrOk = false then AllocOutcome.abort
      else
        allocFinish o device host_ptr
          { mem_obj with mem_host_ptr := some o.fresh_host_ptr } o.fresh_dev_ptr
          [Action.memHostAlloc mem_obj.size,
           Action.memHostGetDevicePointer (some o.fresh_host_ptr)]
    else
      if o.memAllocOk = false then
        AllocOutcome.ret CL_MEM_OBJECT_ALLOCATION_FAILURE mem_obj
          [Action.memAlloc mem_obj.size]
      else
        allocFinish o device host_ptr mem_obj o.fresh_dev_ptr
          [Action.memAlloc mem_obj.size]
  else
    AllocOutcome.ret CL_SUCCESS (copyRegionSlot mem_obj device) []

/-- Embedding of `pocl_cuda_free` (non-ARM): free the page-locked host
allocation if `CL_MEM_ALLOC_HOST_PTR` was used, otherwise `cuMemFree` the
device pointer recorded in the device's slot. -/
def pocl_cuda_free (device : Device) (mem_obj : MemObj) : MemObj × List Action :=
  if mem_obj.flags.alloc_host_ptr then
    ({ mem_obj with mem_host_ptr := none }, [Action.memFreeHost mem_obj.mem_host_ptr])
  else
    (mem_obj, [Action.memFree (slotAt mem_obj device.dev_id).mem_ptr])

/-- Embedding of `pocl_cuda_copy`: no driver call at all when the two
base pointers coincide, otherwise one `cuMemcpyDtoD` between the
offset-adjusted addresses. -/
def pocl_cuda_copy (src_ptr : Nat) (src_offset : Nat) (dst_ptr : Nat)
    (dst_offset : Nat) (cb : Nat) : List Action :=
  if src_ptr = dst_ptr then []
  else [Action.memcpyDtoD (dst_ptr + dst_offset) (src_ptr + src_offset) cb]

/-- Embedding of `pocl_cuda_read`: one `cuMemcpyDtoH` of `cb` bytes from
`device_ptr + offset` to `host_ptr`. -/
def pocl_cuda_read (host_ptr : Nat) (device_ptr : Nat) (offset : Nat)
    (cb : Nat) : List Action :=
  [Action.memcpyDtoH host_ptr (device_ptr + offset) cb]

/-- Embedding of `pocl_cuda_write`: one `cuMemcpyHtoD` of `cb` bytes from
`host_ptr` to `device_ptr + offset`. -/
def pocl_cuda_write (host_ptr : Nat) (device_ptr : Nat) (offset : Nat)
    (cb : Nat) : List Action :=
  [Action.memcpyHtoD (device_ptr + offset) (some host_ptr) cb]

/-- Memory-type tag of one side of a `CUDA_MEMCPY3D` descriptor. -/
inductive MemoryType where
  | host
  | device
deriving DecidableEq, Repr

/-- The fields of the `CUDA_MEMCPY3D` descriptor that the driver fills in
(the separate `srcHost`/`srcDevice` union members are collapsed into one
`srcPtr` address distinguished by `srcMemoryType`, likewise for `dst`). -/
structure CUDA_MEMCPY3D where
  WidthInBytes : Nat
  Height : Nat
  Depth : Nat
  srcMemoryType : MemoryType
  srcPtr : Nat
  srcXInBytes : Nat
  srcY : Nat
  srcZ : Nat
  srcPitch : Nat
  srcHeight : Nat
  dstMemoryType : MemoryType
  dstPtr : Nat
  dstXInBytes : Nat
  dstY : Nat
  dstZ : Nat
  dstPitch : Nat
  dstHeight : Nat
deriving DecidableEq, Repr

/-- A 3-D origin or region, `(x or width, y or height, z or depth)`. -/
def Vec3 : Type := Nat × Nat × Nat

/-- Descriptor built by `pocl_cuda_read_rect` (device is the source side,
host the destination side), field by field as in the source. -/
def pocl_cuda_read_rect_params (host_ptr device_ptr : Nat)
    (buffer_origin host_origin region : Vec3)
    (buffer_row_pitch buffer_slice_pitch host_row_pitch host_slice_pitch : Nat) :
    CUDA_MEMCPY3D :=
  { WidthInBytes := region.1
    Height := region.2.1
    Depth := region.2.2
    dstMemoryType := MemoryType.host
    dstPtr := host_ptr
    dstXInBytes := host_origin.1
    dstY := host_origin.2.1
    dstZ := host_origin.2.2
    dstPitch := host_row_pitch
    dstHeight := host_slice_pitch / host_row_pitch
    srcMemoryType := MemoryType.device
    srcPtr := device_ptr
    srcXInBytes := buffer_origin.1
    srcY := buffer_origin.2.1
    srcZ := buffer_origin.2.2
    srcPitch := buffer_row_pitch
    srcHeight := buffer_slice_pitch / buffer_row_pitch }

/-- Descriptor built by `pocl_cuda_write_rect` (host is the source side,
device the destination side), field by field as in the source. -/
def pocl_cuda_write_rect_params (host_ptr device_ptr : Nat)
    (buffer_origin host_origin region : Vec3)
    (buffer_row_pitch buffer_slice_pitch host_row_pitch host_slice_pitch : Nat) :
    CUDA_MEMCPY3D :=
  { WidthInBytes := region.1
    Height := region.2.1
    Depth := region.2.2
    srcMemoryType := MemoryType.host
    srcPtr := host_ptr
    srcXInBytes := host_origin.1
    srcY := host_origin.2.1
    srcZ := host_origin.2.2
    srcPitch := host_row_pitch
    srcHeight := host_slice_pitch / host_row_pitch
    dstMemoryType := MemoryType.device
    dstPtr := device_ptr
    dstXInBytes := buffer_origin.1
    dstY := buffer_origin.2.1
    dstZ := buffer_origin.2.2
    dstPitch := buffer_row_pitch
    dstHeight := buffer_slice_pitch / buffer_row_pitch }

/-- Descriptor built by `pocl_cuda_copy_rect` (both sides device), field
by field as in the source. -/
def pocl_cuda_copy_rect_params (src_ptr dst_ptr : Nat)
    (src_origin dst_origin region : Vec3)
    (src_row_pitch src_slice_pitch dst_row_pitch dst_slice_pitch : Nat) :
    CUDA_MEMCPY3D :=
  { WidthInBytes := region.1
    Height := region.2.1
    Depth := region.2.2
    srcMemoryType := MemoryType.device
    srcPtr := src_ptr
    srcXInBytes := src_origin.1
    srcY := src_origin.2.1
    srcZ := src_origin.2.2
    srcPitch := src_row_pitch
    srcHeight := src_slice_pitch / src_row_pitch
    dstMemoryType := MemoryType.device
    dstPtr := dst_ptr
    dstXInBytes := dst_origin.1
    dstY := dst_origin.2.1
    dstZ := dst_origin.2.2
    dstPitch := dst_row_pitch
    dstHeight := dst_slice_pitch / dst_row_pitch }

/-- One side of a rectangular transfer as the specification describes it:
a memory-type tag, a base address, an origin, and that side's own row and
slice pitches. -/
structure RectSide where
  memType : MemoryType
  ptr : Nat
  origin : Vec3
  row_pitch : Nat
  slice_pitch : Nat

/-- Modelled from the spec: the one symmetric Copy Descriptor
construction — width/height/depth from the region, each side carrying its
own origin as `(XInBytes, Y, Z)` and its own row pitch, slice height
derived as that side's `slice_pitch / row_pitch`. The three entry points
must be instances of this construction differing only in the tags. -/
def mkCopy3D (src dst : RectSide) (region : Vec3) : CUDA_MEMCPY3D :=
  { WidthInBytes := region.1
    Height := region.2.1
    Depth := region.2.2
    srcMemoryType := src.memType
    srcPtr := src.ptr
    srcXInBytes := src.origin.1
    srcY := src.origin.2.1
    srcZ := src.origin.2.2
    srcPitch := src.row_pitch
    srcHeight := src.slice_pitch / src.row_pitch
    dstMemoryType := dst.memType
    dstPtr := dst.ptr
    dstXInBytes := dst.origin.1
    dstY := dst.origin.2.1
    dstZ := dst.origin.2.2
    dstPitch := dst.row_pitch
    dstHeight := dst.slice_pitch / dst.row_pitch }

/-- Outcome of running a rectangular transfer entry point: undefined
behaviour from a zero-divisor slice-height division, a fatal driver-check
abort after a failed `cuMemcpy3D`, or an issued descriptor. -/
inductive RectOutcome where
  | divByZeroUB
  | abort
  | issued (params : CUDA_MEMCPY3D)
deriving DecidableEq, Repr

/-- Run of `pocl_cuda_read_rect`: the source performs the two slice-height
divisions unconditionally while filling the descriptor (a zero row pitch
is an undefined C division, modelled as `divByZeroUB`), then calls
`cuMemcpy3D`, aborting on a driver error. -/
def pocl_cuda_read_rect (memcpy3DOk : Bool) (host_ptr device_ptr : Nat)
    (buffer_origin host_origin region : Vec3)
    (buffer_row_pitch buffer_slice_pitch host_row_pitch host_slice_pitch : Nat) :
    RectOutcome :=
  if host_row_pitch = 0 ∨ buffer_row_pitch = 0 then RectOutcome.divByZeroUB
  else if memcpy3DOk = false then RectOutcome.abort
  else
    RectOutcome.issued
      (pocl_cuda_read_rect_params host_ptr device_ptr buffer_origin host_origin
        region buffer_row_pitch buffer_slice_pitch host_row_pitch host_slice_pitch)

/-- Run of `pocl_cuda_write_rect`, analogous to `pocl_cuda_read_rect`. -/
def pocl_cuda_write_rect (memcpy3DOk : Bool) (host_ptr device_ptr : Nat)
    (buffer_origin host_origin region : Vec3)
    (buffer_row_pitch buffer_slice_pitch host_row_pitch host_slice_pitch : Nat) :
    RectOutcome :=
  if host_row_pitch = 0 ∨ buffer_row_pitch = 0 then RectOutcome.divByZeroUB
  else if memcpy3DOk = false then RectOutcome.abort
  else
    RectOutcome.issued
      (pocl_cuda_write_rect_params host_ptr device_ptr buffer_origin host_origin
        region buffer_row_pitch buffer_slice_pitch host_row_pitch host_slice_pitch)

/-- Run of `pocl_cuda_copy_rect`, analogous to `pocl_cuda_read_rect`. -/
def pocl_cuda_copy_rect (memcpy3DOk : Bool) (src_ptr dst_ptr : Nat)
    (src_origin dst_origin region : Vec3)
    (src_row_pitch src_slice_pitch dst_row_pitch dst_slice_pitch : Nat) :
    RectOutcome :=
  if src_row_pitch = 0 ∨ dst_row_pitch = 0 then RectOutcome.divByZeroUB
  else if memcpy3DOk = false then RectOutcome.abort
  else
    RectOutcome.issued
      (pocl_cuda_copy_rect_params src_ptr dst_ptr src_origin dst_origin region
        src_row_pitch src_slice_pitch dst_row_pitch dst_slice_pitch)

/-- Embedding of `pocl_cuda_map_mem`: a non-null supplied host pointer is
returned as is with no work; otherwise a staging buffer of `size` bytes
is allocated at the fresh host address `fresh` (the `malloc` result) and
filled from `buf_ptr + offset` by one `cuMemcpyDtoH`. -/
def pocl_cuda_map_mem (fresh : Nat) (buf_ptr : Nat) (offset : Nat) (size : Nat)
    (host_ptr : Option Nat) : Option Nat × List Action :=
  match host_ptr with
  | some p => (some p, [])
  | none =>
      (some fresh,
       [Action.hostMalloc size, Action.memcpyDtoH fresh (buf_ptr + offset) size])

/-- Embedding of `pocl_cuda_unmap_mem`: whenever the host pointer is
non-null, copy `size` bytes from it back to `device_start_ptr + offset`
by one `cuMemcpyHtoD`, then `free` the host pointer; always return NULL. -/
def pocl_cuda_unmap_mem (host_ptr : Option Nat) (device_start_ptr : Nat)
    (offset : Nat) (size : Nat) : Option Nat × List Action :=
  match host_ptr with
  | some p =>
      (none,
       [Action.memcpyHtoD (device_start_ptr + offset) (some p) size,
        Action.hostFree p])
  | none => (none, [])

/-- On-disk artifact key produced by `pocl_cache_work_group_function_path`
plus the `.ptx` suffix: program, device index within the program, kernel
name, and the work-group-size hint (always `(0,0,0)` at this call site).
Names are numbered to keep the model decidable. -/
structure ArtifactPath where
  program : Nat
  device_i : Nat
  kernel_name : Nat
  hint_x : Nat
  hint_y : Nat
  hint_z : Nat
deriving DecidableEq, Repr

/-- The fields of `cl_kernel` that the loader reads or writes: the owning
program, the kernel name, and the single `data` cache slot.  A resolved
`CUfunction` is represented by the artifact path it was loaded from, which
records which device's artifact produced it. -/
structure Kernel where
  program : Nat
  name : Nat
  data : Option ArtifactPath
deriving DecidableEq, Repr

/-- External calls the loader can make. -/
inductive LoaderAction where
  | ptxGen (p : ArtifactPath)
  | moduleLoad (p : ArtifactPath)
  | getFunction (p : ArtifactPath)
deriving DecidableEq, Repr

/-- Oracle for the fallible loader steps. -/
structure LoaderOracle where
  genOk : Bool
  moduleLoadOk : Bool
  getFunctionOk : Bool
deriving DecidableEq, Repr

/-- Outcome of `load_or_generate_kernel`: abort, or the updated kernel,
the updated set of on-disk artifacts, and the trace of external calls. -/
inductive LoaderOutcome where
  | abort
  | ok (kernel : Kernel) (disk : List ArtifactPath) (acts : List LoaderAction)
deriving DecidableEq, Repr

/-- The artifact path the loader computes for a kernel and a device
index: key (program, device index, kernel, work-group-size hint 0,0,0). -/
def wgPath (kernel : Kernel) (device_i : Nat) : ArtifactPath :=
  ⟨kernel.program, device_i, kernel.name, 0, 0, 0⟩

/-- Embedding of `load_or_generate_kernel`: return immediately if the
kernel's `data` slot is already populated; otherwise compute the artifact
path for this device index, invoke PTX generation only when the artifact
file does not exist on disk (fatal on failure), load the module and
resolve the function (each fatal on failure), and cache the function in
the kernel's `data` slot. -/
def load_or_generate_kernel (o : LoaderOracle) (kernel : Kernel)
    (device_i : Nat) (disk : List ArtifactPath) : LoaderOutcome :=
  if kernel.data.isSome then LoaderOutcome.ok kernel disk []
  else
    let path := wgPath kernel device_i
    if path ∈ disk then
      if o.moduleLoadOk = false then LoaderOutcome.abort
      else if o.getFunctionOk = false then LoaderOutcome.abort
      else
        LoaderOutcome.ok { kernel with data := some path } disk
          [LoaderAction.moduleLoad path, LoaderAction.getFunction path]
    else
      if o.genOk = false then LoaderOutcome.abort
      else if o.moduleLoadOk = false then LoaderOutcome.abort
      else if o.getFunctionOk = false then LoaderOutcome.abort
      else
        LoaderOutcome.ok { kernel with data := some path } (path :: disk)
          [LoaderAction.ptxGen path, LoaderAction.moduleLoad path,
           LoaderAction.getFunction path]

/-- Embedding of `pocl_cuda_compile_kernel`, which just delegates to
`load_or_generate_kernel`. -/
def pocl_cuda_compile_kernel (o : LoaderOracle) (kernel : Kernel)
    (device_i : Nat) (disk : List ArtifactPath) : LoaderOutcome :=
  load_or_generate_kernel o kernel device_i disk

/-- The `pocl_argument_type` enumeration. -/
inductive pocl_argument_type where
  | NONE
  | POINTER
  | IMAGE
  | SAMPLER
deriving DecidableEq, Repr

/-- The fields of one `arg_info` entry read by the marshaler. -/
structure KernelArgInfo where
  type : pocl_argument_type
  is_local : Bool
deriving DecidableEq, Repr

/-- What a bound argument's `value` pointer refers to: either raw value
bytes (for value arguments) or a memory-object handle (for pointer
arguments). -/
inductive ArgValue where
  | rawValue (v : Nat)
  | memRef (m : MemObj)
deriving DecidableEq, Repr

/-- One `pocl_argument`: an optional bound value and a size. -/
structure PoclArgument where
  value : Option ArgValue
  size : Nat
deriving DecidableEq, Repr

/-- One entry of the native `params` array handed to `cuLaunchKernel`
(each C entry is a pointer to the actual datum; the model records the
datum it points to): raw value bytes, a (nullable) device pointer, or a
shared-memory byte offset for a local argument. -/
inductive NativeArg where
  | raw (v : Option ArgValue)
  | devPtr (p : Option Nat)
  | localOffset (off : Nat)
deriving DecidableEq, Repr

/-- Marshaling of one explicit argument at running shared-memory total
`shared` (the body of the `for` loop over `kernel->num_args`): value
arguments pass through, local pointer arguments take the current offset
and advance the total by their size, global pointer arguments resolve the
device pointer of the referenced object in the device's slot (null if
unbound), image and sampler arguments hit `POCL_ABORT` (`none`).  A
pointer argument bound to raw value bytes has no meaning in the C source
(it would reinterpret those bytes); it is mapped to a null device
pointer, which no theorem below depends on. -/
def marshalArg (device : Device) (info : KernelArgInfo) (arg : PoclArgument)
    (shared : Nat) : Option (NativeArg × Nat) :=
  match info.type with
  | pocl_argument_type.NONE => some (NativeArg.raw arg.value, shared)
  | pocl_argument_type.POINTER =>
      if info.is_local then
        some (NativeArg.localOffset shared, shared + arg.size)
      else
        match arg.value with
        | some (ArgValue.memRef m) =>
            some (NativeArg.devPtr (slotAt m device.dev_id).mem_ptr, shared)
        | some (ArgValue.rawValue _) => some (NativeArg.devPtr none, shared)
        | none => some (NativeArg.devPtr none, shared)
  | pocl_argument_type.IMAGE => none
  | pocl_argument_type.SAMPLER => none

/-- Marshaling loop over the explicit arguments, threading the running
shared-memory total; `none` propagates an abort. -/
def marshalArgs (device : Device) :
    List (KernelArgInfo × PoclArgument) → Nat → Option (List NativeArg × Nat)
  | [], shared => some ([], shared)
  | (info, arg) :: rest, shared =>
      match marshalArg device info arg shared with
      | none => none
      | some (p, shared2) =>
          match marshalArgs device rest shared2 with
          | none => none
          | some (ps, shared3) => some (p :: ps, shared3)

/-- Marshaling loop over the automatic local allocations (the second
`for` loop of `pocl_cuda_submit`): each gets the current running total as
its offset and advances it by its size. -/
def marshalLocals : List PoclArgument → Nat → List NativeArg × Nat
  | [], shared => ([], shared)
  | arg :: rest, shared =>
      let (ps, total) := marshalLocals rest (shared + arg.size)
      (NativeArg.localOffset shared :: ps, total)

/-- Outcome of the kernel-launch branch of `pocl_cuda_submit`: abort, or
a launch with the assembled native argument array and the dynamic
shared-memory byte size passed to `cuLaunchKernel`. -/
inductive SubmitOutcome where
  | abort
  | launched (params : List NativeArg) (sharedMemBytes : Nat)
deriving DecidableEq, Repr

/-- Embedding of the argument-marshaling and launch portion of
`pocl_cuda_submit` for a `CL_COMMAND_NDRANGE_KERNEL` node: marshal the
explicit arguments starting from a shared-memory total of 0, then append
the automatic local allocations continuing the same total, and launch
with the resulting argument array and shared-memory size.  The explicit
`arguments` entries are paired positionally with `arg_info`; the
automatic local allocations are the `arguments` entries past
`num_args`. -/
def pocl_cuda_submit (device : Device) (arg_info : List KernelArgInfo)
    (arguments : List PoclArgument) (local_arguments : List PoclArgument) :
    SubmitOutcome :=
  match marshalArgs device (arg_info.zip arguments) 0 with
  | none => SubmitOutcome.abort
  | some (ps, shared) =>
      let (lps, total) := marshalLocals local_arguments shared
      SubmitOutcome.launched (ps ++ lps) total

/-- Whether a native argument is a shared-memory offset. -/
def isLocalOffset : NativeArg → Bool
  | NativeArg.localOffset _ => true
  | _ => false

/-- The shared-memory offsets among a native argument list, in order. -/
def localParams : List NativeArg → List Nat
  | [] => []
  | NativeArg.localOffset o :: rest => o :: localParams rest
  | NativeArg.raw _ :: rest => localParams rest
  | NativeArg.devPtr _ :: rest => localParams rest

/-- Declared sizes of the local pointer arguments among the explicit
(argument-info, argument) pairs, in order. -/
def localSizesOf : List (KernelArgInfo × PoclArgument) → List Nat
  | [] => []
  | (info, arg) :: rest =>
      if info.type = pocl_argument_type.POINTER ∧ info.is_local = true then
        arg.size :: localSizesOf rest
      else localSizesOf rest

/-- Running-total offsets of a list of sizes, starting at 0: element `k`
is the sum of the first `k` sizes. -/
def offsetsOf : List Nat → List Nat
  | [] => []
  | s :: rest => 0 :: (offsetsOf rest).map (· + s)

theorem localParams_append (a b : List NativeArg) :
    localParams (a ++ b) = localParams a ++ localParams b := by
  induction a with
  | nil => rfl
  | cons x rest ih => cases x <;> simp [localParams, ih]

theorem localParams_map_localOffset (xs : List Nat) :
    localParams (xs.map NativeArg.localOffset) = xs := by
  induction xs with
  | nil => rfl
  | cons x rest ih => simp [localParams, ih]

theorem offsetsOf_append (xs ys : List Nat) :
    offsetsOf (xs ++ ys) = offsetsOf xs ++ (offsetsOf ys).map (· + xs.sum) := by
  induction xs with
  | nil =>
      simp [offsetsOf]
  | cons s rest ih =>
      have h0 : (s :: rest) ++ ys = s :: (rest ++ ys) := rfl
      rw [h0]
      simp only [offsetsOf, List.sum_cons]
      rw [ih]
      simp only [List.map_append, List.map_map]
      congr 1
      congr 1
      apply List.map_congr_left
      intro a _
      simp only [Function.comp_apply]
      omega

theorem offsetsOf_pairwise (sizes : List Nat) (h : ∀ x ∈ sizes, 0 < x) :
    List.Pairwise (· < ·) (offsetsOf sizes) := by
  induction sizes with
  | nil => simp [offsetsOf]
  | cons s rest ih =>
      simp only [offsetsOf]
      constructor
      · intro y hy
        rcases List.mem_map.mp hy with ⟨o, _, rfl⟩
        have hs : 0 < s := h s (List.mem_cons_self s rest)
        omega
      · refine List.Pairwise.map _ (fun a b hab => ?_)
          (ih (fun x hx => h x (List.mem_cons_of_mem s hx)))
        omega

theorem marshalLocals_eq (l : List PoclArgument) (s : Nat) :
    marshalLocals l s
      = ((offsetsOf (l.map PoclArgument.size)).map
           (fun o => NativeArg.localOffset (o + s)),
         s + (l.map PoclArgument.size).sum) := by
  induction l generalizing s with
  | nil => simp [marshalLocals, offsetsOf]
  | cons a rest ih =>
      simp only [marshalLocals, ih, List.map_cons, offsetsOf, List.sum_cons,
        List.map_map, Prod.mk.injEq]
      refine ⟨?_, by omega⟩
      rw [Nat.zero_add]
      congr 1
      apply List.map_congr_left
      intro x _
      simp only [Function.comp_apply]
      exact congrArg NativeArg.localOffset (by omega)

theorem marshalArg_cases (device : Device) (info : KernelArgInfo)
    (arg : PoclArgument) (s : Nat) (p : NativeArg) (s2 : Nat)
    (h : marshalArg device info arg s = some (p, s2)) :
    (info.type = pocl_argument_type.POINTER ∧ info.is_local = true
      ∧ p = NativeArg.localOffset s ∧ s2 = s + arg.size)
    ∨ (¬(info.type = pocl_argument_type.POINTER ∧ info.is_local = true)
      ∧ isLocalOffset p = false ∧ s2 = s) := by
  cases hty : info.type with
  | NONE =>
      simp [marshalArg, hty] at h
      right
      simp [hty, ← h.1, isLocalOffset, h.2]
  | POINTER =>
      cases hloc : info.is_local with
      | true =>
          simp [marshalArg, hty, hloc] at h
          left
          exact ⟨rfl, rfl, h.1.symm, h.2.symm⟩
      | false =>
          right
          refine ⟨by simp [hloc], ?_⟩
          cases hv : arg.value with
          | none =>
              simp [marshalArg, hty, hloc, hv] at h
              simp [← h.1, isLocalOffset, h.2]
          | some v =>
              cases v with
              | rawValue w =>
                  simp [marshalArg, hty, hloc, hv] at h
                  simp [← h.1, isLocalOffset, h.2]
              | memRef m =>
                  simp [marshalArg, hty, hloc, hv] at h
                  simp [← h.1, isLocalOffset, h.2]
  | IMAGE => simp [marshalArg, hty] at h
  | SAMPLER => simp [marshalArg, hty] at h

theorem marshalArgs_spec (device : Device) :
    ∀ (l : List (KernelArgInfo × PoclArgument)) (s : Nat)
      (ps : List NativeArg) (s2 : Nat),
      marshalArgs device l s = some (ps, s2) →
      localParams ps = (offsetsOf (localSizesOf l)).map (· + s)
      ∧ s2 = s + (localSizesOf l).sum
      ∧ List.Forall₂
          (fun p (ia : KernelArgInfo × PoclArgument) =>
            ia.1.type = pocl_argument_type.POINTER ∧ ia.1.is_local = true →
              ∃ off, p = NativeArg.localOffset off)
          ps l := by
  intro l
  induction l with
  | nil =>
      intro s ps s2 h
      simp only [marshalArgs, Option.some.injEq, Prod.mk.injEq] at h
      obtain ⟨rfl, rfl⟩ := h
      refine ⟨by simp [localParams, localSizesOf, offsetsOf], ?_, List.Forall₂.nil⟩
      simp [localSizesOf]
  | cons hd rest ih =>
      intro s ps s2 h
      obtain ⟨info, arg⟩ := hd
      cases h1 : marshalArg device info arg s with
      | none => rw [marshalArgs, h1] at h; exact absurd h (by simp)
      | some pr =>
          obtain ⟨p, sMid⟩ := pr
          rw [marshalArgs, h1] at h
          dsimp only at h
          cases h2 : marshalArgs device rest sMid with
          | none => rw [h2] at h; exact absurd h (by simp)
          | some pr2 =>
              obtain ⟨ps2, s3⟩ := pr2
              rw [h2] at h
              dsimp only at h
              simp only [Option.some.injEq, Prod.mk.injEq] at h
              obtain ⟨hps, hs2⟩ := h
              obtain ⟨ih1, ih2, ih3⟩ := ih sMid ps2 s3 h2
              rcases marshalArg_cases device info arg s p sMid h1 with
                ⟨hty, hloc, hp, hsz⟩ | ⟨hnot, hnotLoc, hsame⟩
              · subst hps hs2 hp hsz
                refine ⟨?_, ?_, ?_⟩
                · simp only [localParams, localSizesOf, hty, hloc, and_self,
                    if_true, offsetsOf, List.map_cons, List.map_map, ih1]
                  rw [Nat.zero_add]
                  congr 1
                  apply List.map_congr_left
                  intro x _
                  simp only [Function.comp_apply]
                  omega
                · simp only [localSizesOf, hty, hloc, and_self, if_true,
                    List.sum_cons, ih2]
                  omega
                · exact List.Forall₂.cons (fun _ => ⟨s, rfl⟩) ih3
              · subst hps hs2 hsame
                have hlp : localParams (p :: ps2) = localParams ps2 := by
                  cases p with
                  | raw v => simp [localParams]
                  | devPtr q => simp [localParams]
                  | localOffset o => simp [isLocalOffset] at hnotLoc
                have hsz : localSizesOf ((info, arg) :: rest)
                    = localSizesOf rest := by
                  simp only [localSizesOf, if_neg hnot]
                refine ⟨?_, ?_, ?_⟩
                · rw [hlp, hsz, ih1]
                · rw [hsz]; exact ih2
                · exact List.Forall₂.cons (fun hcon => absurd hcon hnot) ih3

theorem getD_set_self {α : Type} (l : List α) (i : Nat) (a d : α)
    (h : i < l.length) : (l.set i a).getD i d = a := by
  induction l generalizing i with
  | nil => simp at h
  | cons x rest ih =>
      cases i with
      | zero => rfl
      | succ n =>
          simp only [List.set_cons_succ, List.getD_cons_succ]
          exact ih n (by simpa using h)

theorem getD_set_ne {α : Type} (l : List α) (i j : Nat) (a d : α)
    (h : i ≠ j) : (l.set i a).getD j d = l.getD j d := by
  induction l generalizing i j with
  | nil => rfl
  | cons x rest ih =>
      cases i with
      | zero =>
          cases j with
          | zero => exact absurd rfl h
          | succ m => rfl
      | succ n =>
          cases j with
          | zero => rfl
          | succ m =>
              simp only [List.set_cons_succ, List.getD_cons_succ]
              exact ih n m (fun he => h (by rw [he]))

theorem set_oob {α : Type} (l : List α) (i : Nat) (a : α)
    (h : l.length ≤ i) : l.set i a = l := by
  induction l generalizing i with
  | nil => rfl
  | cons x rest ih =>
      cases i with
      | zero => simp at h
      | succ n =>
          simp only [List.set_cons_succ]
          rw [ih n (by simpa using h)]

theorem length_copyRegionSlot (m : MemObj) (d : Device) :
    (copyRegionSlot m d).device_ptrs.length = m.device_ptrs.length := by
  simp [copyRegionSlot]

theorem slotAt_copyRegionSlot_dev (m : MemObj) (d : Device)
    (h : d.dev_id < m.device_ptrs.length) :
    slotAt (copyRegionSlot m d) d.dev_id = slotAt m d.global_mem_id := by
  unfold slotAt copyRegionSlot
  exact getD_set_self _ _ _ _ h

theorem slotAt_copyRegionSlot_ne (m : MemObj) (d : Device) (j : Nat)
    (h : j ≠ d.dev_id) :
    slotAt (copyRegionSlot m d) j = slotAt m j := by
  unfold slotAt copyRegionSlot
  exact getD_set_ne _ _ _ _ _ (fun he => h he.symm)

theorem slotAt_copyRegionSlot_region (m : MemObj) (d : Device) :
    slotAt (copyRegionSlot m d) d.global_mem_id = slotAt m d.global_mem_id := by
  by_cases hj : d.global_mem_id = d.dev_id
  · by_cases hlen : d.dev_id < m.device_ptrs.length
    · rw [hj, slotAt_copyRegionSlot_dev m d hlen, hj]
    · unfold slotAt copyRegionSlot
      rw [set_oob _ _ _ (by omega)]
  · exact slotAt_copyRegionSlot_ne m d _ hj

/-- Claim C2: allocation is keyed by global-memory region id.  When the
region's slot is already populated with a device pointer `p`, the
allocation operation performs no driver call, returns success, and only
copies the region's slot (device pointer and region id) into the
requesting device's own slot, leaving the rest of the object unchanged;
any further device sharing the same region likewise performs no driver
call and ends up with the very same device pointer `p` in its slot. -/
theorem c2_alloc_keyed_by_region (o : AllocOracle) (d : Device) (m : MemObj)
    (hp : Option Nat) (p : Nat)
    (hres : (slotAt m d.global_mem_id).mem_ptr = some p) :
    pocl_cuda_alloc_mem_obj o d m hp
      = AllocOutcome.ret CL_SUCCESS (copyRegionSlot m d) []
    ∧ (d.dev_id < m.device_ptrs.length →
        slotAt (copyRegionSlot m d) d.dev_id = slotAt m d.global_mem_id)
    ∧ (∀ j, j ≠ d.dev_id → slotAt (copyRegionSlot m d) j = slotAt m j)
    ∧ (copyRegionSlot m d).size = m.size
    ∧ (copyRegionSlot m d).flags = m.flags
    ∧ (copyRegionSlot m d).mem_host_ptr = m.mem_host_ptr
    ∧ (∀ (o2 : AllocOracle) (d2 : Device) (hp2 : Option Nat),
        d2.global_mem_id = d.global_mem_id →
        pocl_cuda_alloc_mem_obj o2 d2 (copyRegionSlot m d) hp2
          = AllocOutcome.ret CL_SUCCESS
              (copyRegionSlot (copyRegionSlot m d) d2) []
        ∧ (d2.dev_id < m.device_ptrs.length →
            (slotAt (copyRegionSlot (copyRegionSlot m d) d2) d2.dev_id).mem_ptr
              = some p)) := by
  have hmain : ∀ (o3 : AllocOracle) (d3 : Device) (m3 : MemObj) (hp3 : Option Nat),
      (slotAt m3 d3.global_mem_id).mem_ptr = some p →
      pocl_cuda_alloc_mem_obj o3 d3 m3 hp3
        = AllocOutcome.ret CL_SUCCESS (copyRegionSlot m3 d3) [] := by
    intro o3 d3 m3 hp3 h3
    unfold pocl_cuda_alloc_mem_obj
    rw [h3]
    simp
  refine ⟨hmain o d m hp hres, slotAt_copyRegionSlot_dev m d,
    fun j hj => slotAt_copyRegionSlot_ne m d j hj, rfl, rfl, rfl, ?_⟩
  intro o2 d2 hp2 hshare
  have hres2 : (slotAt (copyRegionSlot m d) d2.global_mem_id).mem_ptr = some p := by
    rw [hshare, slotAt_copyRegionSlot_region, hres]
  refine ⟨hmain o2 d2 (copyRegionSlot m d) hp2 hres2, fun hlen => ?_⟩
  have hlen2 : d2.dev_id < (copyRegionSlot m d).device_ptrs.length := by
    rw [length_copyRegionSlot]; exact hlen
  rw [slotAt_copyRegionSlot_dev (copyRegionSlot m d) d2 hlen2]
  exact hres2

/-- Witness for C2: a concrete already-resident region (pointer 7 in
region 0) on a second device with `dev_id = 1`. -/
theorem c2_alloc_keyed_by_region_witness :
    pocl_cuda_alloc_mem_obj ⟨CUresult.success, true, true, true, true, 11, 22⟩
        ⟨1, 0⟩ ⟨32, ⟨false, false, false⟩, none, [⟨some 7, 0⟩, ⟨none, 0⟩]⟩ none
      = AllocOutcome.ret CL_SUCCESS
          (copyRegionSlot ⟨32, ⟨false, false, false⟩, none, [⟨some 7, 0⟩, ⟨none, 0⟩]⟩ ⟨1, 0⟩) [] :=
  (c2_alloc_keyed_by_region ⟨CUresult.success, true, true, true, true, 11, 22⟩
    ⟨1, 0⟩ ⟨32, ⟨false, false, false⟩, none, [⟨some 7, 0⟩, ⟨none, 0⟩]⟩ none 7 rfl).1

/-- Claim C3 (amended): on a fresh region, a failed `cuMemAlloc` on the
default device-only path returns `CL_MEM_OBJECT_ALLOCATION_FAILURE` with
the object unchanged (no residency slot recorded) and no abort; a
registration error other than already-registered, a failed host
allocation, a failed device-pointer lookup on either host-pointer path,
and a failed eager copy are all fatal; a registration result of
already-registered is tolerated and the use-host-pointer path continues
to a successful return. -/
theorem c3_alloc_error_paths (o : AllocOracle) (d : Device) (m : MemObj)
    (hp : Option Nat)
    (hfresh : (slotAt m d.global_mem_id).mem_ptr = none) :
    (m.flags.use_host_ptr = false → m.flags.alloc_host_ptr = false →
      o.memAllocOk = false →
      pocl_cuda_alloc_mem_obj o d m hp
        = AllocOutcome.ret CL_MEM_OBJECT_ALLOCATION_FAILURE m
            [Action.memAlloc m.size])
    ∧ (m.flags.use_host_ptr = true → o.hostRegister = CUresult.otherError →
        pocl_cuda_alloc_mem_obj o d m hp = AllocOutcome.abort)
    ∧ (m.flags.use_host_ptr = true → o.hostRegister ≠ CUresult.otherError →
        o.hostGetDevPtrOk = false →
        pocl_cuda_alloc_mem_obj o d m hp = AllocOutcome.abort)
    ∧ (m.flags.use_host_ptr = false → m.flags.alloc_host_ptr = true →
        o.hostAllocOk = false →
        pocl_cuda_alloc_mem_obj o d m hp = AllocOutcome.abort)
    ∧ (m.flags.use_host_ptr = false → m.flags.alloc_host_ptr = true →
        o.hostAllocOk = true → o.hostGetDevPtrOk = false →
        pocl_cuda_alloc_mem_obj o d m hp = AllocOutcome.abort)
    ∧ (m.flags.use_host_ptr = false → m.flags.alloc_host_ptr = false →
        o.memAllocOk = true → m.flags.copy_host_ptr = true → o.copyOk = false →
        pocl_cuda_alloc_mem_obj o d m hp = AllocOutcome.abort)
    ∧ (m.flags.use_host_ptr = true → o.hostRegister = CUresult.alreadyRegistered →
        o.hostGetDevPtrOk = true → m.flags.copy_host_ptr = false →
        pocl_cuda_alloc_mem_obj o d m hp
          = AllocOutcome.ret CL_SUCCESS
              (copyRegionSlot (recordSlot m d.global_mem_id o.fresh_dev_ptr) d)
              [Action.memHostRegister hp m.size,
               Action.memHostGetDevicePointer hp]) := by
  refine ⟨?_, ?_, ?_, ?_, ?_, ?_, ?_⟩
  · intro h1 h2 h3
    unfold pocl_cuda_alloc_mem_obj
    rw [hfresh]
    simp [h1, h2, h3]
  · intro h1 h2
    unfold pocl_cuda_alloc_mem_obj
    rw [hfresh]
    simp [h1, h2]
  · intro h1 h2 h3
    unfold pocl_cuda_alloc_mem_obj
    rw [hfresh]
    simp [h1, h2, h3]
  · intro h1 h2 h3
    unfold pocl_cuda_alloc_mem_obj
    rw [hfresh]
    simp [h1, h2, h3]
  · intro h1 h2 h3 h4
    unfold pocl_cuda_alloc_mem_obj allocFinish
    rw [hfresh]
    simp [h1, h2, h3, h4]
  · intro h1 h2 h3 h4 h5
    unfold pocl_cuda_alloc_mem_obj allocFinish
    rw [hfresh]
    simp [h1, h2, h3, h4, h5]
  · intro h1 h2 h3 h4
    unfold pocl_cuda_alloc_mem_obj allocFinish
    rw [hfresh]
    simp [h1, h2, h3, h4]

/-- Counterexample for C3 as stated: on the use-host-pointer path the
registration call can return a non-success driver result
(already-registered) without the process aborting. -/
theorem c3_already_registered_not_fatal :
    pocl_cuda_alloc_mem_obj
        ⟨CUresult.alreadyRegistered, true, true, true, true, 11, 22⟩
        ⟨0, 0⟩ ⟨16, ⟨true, false, false⟩, none, [⟨none, 0⟩]⟩ (some 99)
      ≠ AllocOutcome.abort
    ∧ (⟨CUresult.alreadyRegistered, true, true, true, true, 11, 22⟩
        : AllocOracle).hostRegister ≠ CUresult.success
    ∧ (⟨16, ⟨true, false, false⟩, none, [⟨none, 0⟩]⟩
        : MemObj).flags.use_host_ptr = true := by
  refine ⟨by decide, by decide, by decide⟩

/-- Witness for C3: the default-path allocation failure at a concrete
input returns the allocation-failure code with the object unchanged. -/
theorem c3_alloc_error_paths_witness :
    pocl_cuda_alloc_mem_obj ⟨CUresult.success, true, true, false, true, 11, 22⟩
        ⟨0, 0⟩ ⟨16, ⟨false, false, false⟩, none, [⟨none, 0⟩]⟩ none
      = AllocOutcome.ret CL_MEM_OBJECT_ALLOCATION_FAILURE
          ⟨16, ⟨false, false, false⟩, none, [⟨none, 0⟩]⟩
          [Action.memAlloc 16] :=
  (c3_alloc_error_paths ⟨CUresult.success, true, true, false, true, 11, 22⟩
    ⟨0, 0⟩ ⟨16, ⟨false, false, false⟩, none, [⟨none, 0⟩]⟩ none rfl).1 rfl rfl rfl

/-- Claim C8: release behaviour at the failing input.  A memory object
allocated under the use-host-pointer policy gets its device pointer from
host registration, yet `pocl_cuda_free` falls into the generic branch and
issues `cuMemFree` on that device-mapped pointer; no host-unregister call
exists anywhere in the driver (the `Action` type needs no constructor for
it), so host-registered memory is never released through the matching
release path. -/
theorem c8_registered_memory_freed_generically :
    pocl_cuda_alloc_mem_obj ⟨CUresult.success, true, true, true, true, 11, 22⟩
        ⟨0, 0⟩ ⟨16, ⟨true, false, false⟩, none, [⟨none, 0⟩]⟩ (some 99)
      = AllocOutcome.ret CL_SUCCESS
          ⟨16, ⟨true, false, false⟩, none, [⟨some 11, 0⟩]⟩
          [Action.memHostRegister (some 99) 16,
           Action.memHostGetDevicePointer (some 99)]
    ∧ pocl_cuda_free ⟨0, 0⟩ ⟨16, ⟨true, false, false⟩, none, [⟨some 11, 0⟩]⟩
      = (⟨16, ⟨true, false, false⟩, none, [⟨some 11, 0⟩]⟩,
         [Action.memFree (some 11)]) := by
  refine ⟨by decide, by decide⟩

@[simp]
theorem applyAction_hostMalloc (n : Nat) (m : Mem) :
    applyAction (Action.hostMalloc n) m = m := rfl

@[simp]
theorem applyAction_hostFree (p : Nat) (m : Mem) :
    applyAction (Action.hostFree p) m = m := rfl

@[simp]
theorem applyAction_memcpyDtoH (dst src n : Nat) (m : Mem) :
    applyAction (Action.memcpyDtoH dst src n) m = copyBytes dst src n m := rfl

@[simp]
theorem applyAction_memcpyHtoD (dst src n : Nat) (m : Mem) :
    applyAction (Action.memcpyHtoD dst (some src) n) m = copyBytes dst src n m := rfl

@[simp]
theorem applyAction_memcpyDtoD (dst src n : Nat) (m : Mem) :
    applyAction (Action.memcpyDtoD dst src n) m = copyBytes dst src n m := rfl

/-- Claim C5: a linear device-to-device copy with identical source and
destination pointers performs no driver call and leaves the byte store
unchanged; with different pointers exactly one `cuMemcpyDtoD` of `cb`
bytes is issued, from source pointer plus source offset to destination
pointer plus destination offset. -/
theorem c5_copy_self_elision (src_ptr src_offset dst_ptr dst_offset cb : Nat)
    (mem : Mem) :
    (src_ptr = dst_ptr →
      pocl_cuda_copy src_ptr src_offset dst_ptr dst_offset cb = []
      ∧ applyActions (pocl_cuda_copy src_ptr src_offset dst_ptr dst_offset cb) mem
          = mem)
    ∧ (src_ptr ≠ dst_ptr →
      pocl_cuda_copy src_ptr src_offset dst_ptr dst_offset cb
        = [Action.memcpyDtoD (dst_ptr + dst_offset) (src_ptr + src_offset) cb]) := by
  constructor
  · intro h
    constructor
    · simp [pocl_cuda_copy, h]
    · simp [pocl_cuda_copy, h, applyActions]
  · intro h
    simp [pocl_cuda_copy, h]

/-- Witness for C5: self-copy at pointer 5 is elided; a copy from
pointer 5 to pointer 6 issues the one offset-adjusted driver copy. -/
theorem c5_copy_self_elision_witness :
    pocl_cuda_copy 5 0 5 16 4 = []
    ∧ pocl_cuda_copy 5 0 6 16 4 = [Action.memcpyDtoD 22 5 4] :=
  ⟨((c5_copy_self_elision 5 0 5 16 4 (fun _ => 0)).1 rfl).1,
   (c5_copy_self_elision 5 0 6 16 4 (fun _ => 0)).2 (by decide)⟩

/-- Claim C4: the three rectangular entry points build their descriptors
by the one symmetric construction `mkCopy3D`: width/height/depth from the
region, each side carrying its own origin and row pitch, slice height
derived as that side's slice pitch divided by its row pitch, and the
entry points differing only in which side is tagged host or device. -/
theorem c4_rect_descriptors_symmetric (host_ptr device_ptr src_ptr dst_ptr : Nat)
    (buffer_origin host_origin src_origin dst_origin region : Vec3)
    (buffer_row_pitch buffer_slice_pitch host_row_pitch host_slice_pitch : Nat)
    (src_row_pitch src_slice_pitch dst_row_pitch dst_slice_pitch : Nat) :
    pocl_cuda_read_rect_params host_ptr device_ptr buffer_origin host_origin
        region buffer_row_pitch buffer_slice_pitch host_row_pitch host_slice_pitch
      = mkCopy3D
          ⟨MemoryType.device, device_ptr, buffer_origin, buffer_row_pitch, buffer_slice_pitch⟩
          ⟨MemoryType.host, host_ptr, host_origin, host_row_pitch, host_slice_pitch⟩
          region
    ∧ pocl_cuda_write_rect_params host_ptr device_ptr buffer_origin host_origin
        region buffer_row_pitch buffer_slice_pitch host_row_pitch host_slice_pitch
      = mkCopy3D
          ⟨MemoryType.host, host_ptr, host_origin, host_row_pitch, host_slice_pitch⟩
          ⟨MemoryType.device, device_ptr, buffer_origin, buffer_row_pitch, buffer_slice_pitch⟩
          region
    ∧ pocl_cuda_copy_rect_params src_ptr dst_ptr src_origin dst_origin region
        src_row_pitch src_slice_pitch dst_row_pitch dst_slice_pitch
      = mkCopy3D
          ⟨MemoryType.device, src_ptr, src_origin, src_row_pitch, src_slice_pitch⟩
          ⟨MemoryType.device, dst_ptr, dst_origin, dst_row_pitch, dst_slice_pitch⟩
          region :=
  ⟨rfl, rfl, rfl⟩

/-- Claim C6: mapping with a non-null supplied host pointer returns that
same address with no staging; mapping without one returns the fresh
`malloc` address whose `size` bytes are populated from the device range
at `buf_ptr + offset`; unmapping the staging pointer first copies its
bytes back to the device at the mapped offset and only then frees it. -/
theorem c6_map_unmap_staging (fresh buf_ptr offset size p : Nat) (mem : Mem) :
    pocl_cuda_map_mem fresh buf_ptr offset size (some p) = (some p, [])
    ∧ pocl_cuda_map_mem fresh buf_ptr offset size none
        = (some fresh,
           [Action.hostMalloc size, Action.memcpyDtoH fresh (buf_ptr + offset) size])
    ∧ (∀ j, j < size →
        applyActions (pocl_cuda_map_mem fresh buf_ptr offset size none).2 mem
            (fresh + j)
          = mem (buf_ptr + offset + j))
    ∧ pocl_cuda_unmap_mem (some fresh) buf_ptr offset size
        = (none,
           [Action.memcpyHtoD (buf_ptr + offset) (some fresh) size,
            Action.hostFree fresh])
    ∧ (∀ j, j < size →
        applyActions (pocl_cuda_unmap_mem (some fresh) buf_ptr offset size).2 mem
            (buf_ptr + offset + j)
          = mem (fresh + j)) := by
  refine ⟨rfl, rfl, ?_, rfl, ?_⟩
  · intro j hj
    show applyActions
        [Action.hostMalloc size, Action.memcpyDtoH fresh (buf_ptr + offset) size]
        mem (fresh + j) = _
    simp only [applyActions, List.foldl, applyAction_hostMalloc,
      applyAction_memcpyDtoH, copyBytes]
    rw [if_pos (by omega)]
    congr 1
    omega
  · intro j hj
    show applyActions
        [Action.memcpyHtoD (buf_ptr + offset) (some fresh) size,
         Action.hostFree fresh]
        mem (buf_ptr + offset + j) = _
    simp only [applyActions, List.foldl, applyAction_hostFree,
      applyAction_memcpyHtoD, copyBytes]
    rw [if_pos (by omega)]
    congr 1
    omega

/-- Witness for C6: concrete map/unmap runs (host pointer 7 returned as
is; staging at 100 for the 4 mapped bytes of device range 20..23). -/
theorem c6_map_unmap_staging_witness :
    pocl_cuda_map_mem 100 20 0 4 (some 7) = (some 7, [])
    ∧ applyActions (pocl_cuda_map_mem 100 20 0 4 none).2 (fun a => a) (100 + 1)
        = ((fun a => a) : Mem) (20 + 0 + 1) :=
  ⟨(c6_map_unmap_staging 100 20 0 4 7 (fun a => a)).1,
   (c6_map_unmap_staging 100 20 0 4 7 (fun a => a)).2.2.1 1 (by decide)⟩

/-- Claim C10 (implicit behaviour of the source): whenever unmap gets a
non-null host pointer it unconditionally copies `size` bytes from it back
to `device_start_ptr + offset`, frees that host pointer, and returns
null — including the pointer a use-host-pointer map returned unchanged,
since map performed no staging allocation for it. -/
theorem c10_unmap_unconditional_writeback (p device_start_ptr offset size
    fresh buf_ptr : Nat) :
    pocl_cuda_unmap_mem (some p) device_start_ptr offset size
      = (none,
         [Action.memcpyHtoD (device_start_ptr + offset) (some p) size,
          Action.hostFree p])
    ∧ (pocl_cuda_map_mem fresh buf_ptr offset size (some p)).1 = some p
    ∧ (pocl_cuda_map_mem fresh buf_ptr offset size (some p)).2 = [] :=
  ⟨rfl, rfl, rfl⟩

theorem marshalArgs_none_of_unsupported (device : Device) :
    ∀ (l : List (KernelArgInfo × PoclArgument)) (s : Nat),
      (∃ ia ∈ l, ia.1.type = pocl_argument_type.IMAGE
        ∨ ia.1.type = pocl_argument_type.SAMPLER) →
      marshalArgs device l s = none := by
  intro l
  induction l with
  | nil =>
      intro s h
      rcases h with ⟨ia, hmem, _⟩
      simp at hmem
  | cons hd rest ih =>
      intro s h
      obtain ⟨info, arg⟩ := hd
      rcases h with ⟨ia, hmem, hun⟩
      rcases List.mem_cons.mp hmem with rfl | hmem2
      · have hnone : marshalArg device info arg s = none := by
          rcases hun with h1 | h1 <;>
            · dsimp only at h1
              simp [marshalArg, h1]
        rw [marshalArgs, hnone]
      · cases h1 : marshalArg device info arg s with
        | none => rw [marshalArgs, h1]
        | some pr =>
            obtain ⟨p, sMid⟩ := pr
            rw [marshalArgs, h1]
            dsimp only
            rw [ih sMid ⟨ia, hmem2, hun⟩]

/-- Claim C9 (amended): an image or sampler kernel argument makes the
submit operation abort the process (never a recoverable result), but the
rectangular copy entry points perform no pitch validation at all: the
slice-height division `slice_pitch / row_pitch` is evaluated
unconditionally, so a zero row pitch reaches a division with divisor
zero (undefined behaviour in the C source) rather than a deliberate
abort, and only with nonzero row pitches is the division well defined. -/
theorem c9_unsupported_fatal_no_pitch_validation (device : Device)
    (arg_info : List KernelArgInfo)
    (arguments local_arguments : List PoclArgument) (ok : Bool)
    (host_ptr device_ptr : Nat) (buffer_origin host_origin region : Vec3)
    (buffer_row_pitch buffer_slice_pitch host_row_pitch host_slice_pitch : Nat) :
    ((∃ ia ∈ arg_info.zip arguments,
        ia.1.type = pocl_argument_type.IMAGE
        ∨ ia.1.type = pocl_argument_type.SAMPLER) →
      pocl_cuda_submit device arg_info arguments local_arguments
        = SubmitOutcome.abort)
    ∧ (host_row_pitch = 0 ∨ buffer_row_pitch = 0 →
        pocl_cuda_read_rect ok host_ptr device_ptr buffer_origin host_origin
            region buffer_row_pitch buffer_slice_pitch host_row_pitch
            host_slice_pitch
          = RectOutcome.divByZeroUB)
    ∧ (host_row_pitch ≠ 0 → buffer_row_pitch ≠ 0 →
        pocl_cuda_read_rect ok host_ptr device_ptr buffer_origin host_origin
            region buffer_row_pitch buffer_slice_pitch host_row_pitch
            host_slice_pitch
          ≠ RectOutcome.divByZeroUB) := by
  refine ⟨?_, ?_, ?_⟩
  · intro h
    unfold pocl_cuda_submit
    rw [marshalArgs_none_of_unsupported device (arg_info.zip arguments) 0 h]
  · intro h
    unfold pocl_cuda_read_rect
    rw [if_pos h]
  · intro h1 h2
    unfold pocl_cuda_read_rect
    rw [if_neg (by simp [h1, h2])]
    cases ok <;> simp

/-- Counterexample for C9 as stated: a read-rect with a zero host row
pitch is not treated as a fatal abort; the source reaches the division
with divisor zero (undefined behaviour), so the slice-height derivation
is evaluated where it is not well defined. -/
theorem c9_zero_pitch_not_abort :
    pocl_cuda_read_rect true 100 200 (0, 0, 0) (0, 0, 0) (4, 1, 1) 4 4 0 0
      = RectOutcome.divByZeroUB
    ∧ RectOutcome.divByZeroUB ≠ RectOutcome.abort := by
  refine ⟨by decide, by decide⟩

/-- Witness for C9: an image argument at a concrete input aborts the
submit operation. -/
theorem c9_unsupported_fatal_witness :
    pocl_cuda_submit ⟨0, 0⟩ [⟨pocl_argument_type.IMAGE, false⟩]
        [⟨none, 4⟩] [] = SubmitOutcome.abort :=
  (c9_unsupported_fatal_no_pitch_validation ⟨0, 0⟩
      [⟨pocl_argument_type.IMAGE, false⟩] [⟨none, 4⟩] [] true 0 0
      (0, 0, 0) (0, 0, 0) (0, 0, 0) 1 1 1 1).1
    ⟨(⟨pocl_argument_type.IMAGE, false⟩, ⟨none, 4⟩), by decide, Or.inl rfl⟩

/-- Claim C7 (amended): the compiled-function cache is the kernel's one
`data` slot, shared by every device: a populated slot short-circuits any
further load, for any device index, with no code generation, module load
or function resolution; on a first load, code generation runs only when
the artifact file is absent from disk; and the on-disk artifact path is
keyed by (program, device index, kernel, work-group-size hint), so
distinct programs or device indices never collide. -/
theorem c7_loader_cached_per_kernel (o : LoaderOracle) (k : Kernel)
    (device_i : Nat) (disk : List ArtifactPath) :
    (k.data.isSome = true →
      load_or_generate_kernel o k device_i disk = LoaderOutcome.ok k disk [])
    ∧ (k.data = none → wgPath k device_i ∈ disk → o.moduleLoadOk = true →
        o.getFunctionOk = true →
        load_or_generate_kernel o k device_i disk
          = LoaderOutcome.ok { k with data := some (wgPath k device_i) } disk
              [LoaderAction.moduleLoad (wgPath k device_i),
               LoaderAction.getFunction (wgPath k device_i)])
    ∧ (k.data = none → wgPath k device_i ∉ disk → o.genOk = true →
        o.moduleLoadOk = true → o.getFunctionOk = true →
        load_or_generate_kernel o k device_i disk
          = LoaderOutcome.ok { k with data := some (wgPath k device_i) }
              (wgPath k device_i :: disk)
              [LoaderAction.ptxGen (wgPath k device_i),
               LoaderAction.moduleLoad (wgPath k device_i),
               LoaderAction.getFunction (wgPath k device_i)])
    ∧ (∀ (k2 : Kernel) (di2 : Nat),
        k.program ≠ k2.program ∨ device_i ≠ di2 →
        wgPath k device_i ≠ wgPath k2 di2) := by
  refine ⟨?_, ?_, ?_, ?_⟩
  · intro h
    unfold load_or_generate_kernel
    rw [if_pos h]
  · intro h1 h2 h3 h4
    unfold load_or_generate_kernel
    simp [h1, h2, h3, h4]
  · intro h1 h2 h3 h4 h5
    unfold load_or_generate_kernel
    simp [h1, h2, h3, h4, h5]
  · intro k2 di2 hne heq
    rcases hne with hne | hne
    · exact hne (congrArg ArtifactPath.program heq)
    · exact hne (congrArg ArtifactPath.device_i heq)

/-- Counterexample for C7 as stated: after the kernel has been loaded for
device index 0 (its slot holds the function resolved from device 0's
artifact), a load for device index 1 performs no code generation, module
load or function resolution, and the one shared slot still holds the
device-0 function — there is no device-specific slot and no artifact is
ever created for the (kernel, device 1) pair. -/
theorem c7_cache_not_device_specific :
    load_or_generate_kernel ⟨true, true, true⟩ ⟨1, 2, none⟩ 0 []
      = LoaderOutcome.ok ⟨1, 2, some ⟨1, 0, 2, 0, 0, 0⟩⟩ [⟨1, 0, 2, 0, 0, 0⟩]
          [LoaderAction.ptxGen ⟨1, 0, 2, 0, 0, 0⟩,
           LoaderAction.moduleLoad ⟨1, 0, 2, 0, 0, 0⟩,
           LoaderAction.getFunction ⟨1, 0, 2, 0, 0, 0⟩]
    ∧ load_or_generate_kernel ⟨true, true, true⟩ ⟨1, 2, some ⟨1, 0, 2, 0, 0, 0⟩⟩
        1 [⟨1, 0, 2, 0, 0, 0⟩]
      = LoaderOutcome.ok ⟨1, 2, some ⟨1, 0, 2, 0, 0, 0⟩⟩ [⟨1, 0, 2, 0, 0, 0⟩] []
    ∧ (⟨1, 0, 2, 0, 0, 0⟩ : ArtifactPath)
        ≠ wgPath ⟨1, 2, some ⟨1, 0, 2, 0, 0, 0⟩⟩ 1 := by
  refine ⟨by decide, by decide, by decide⟩

/-- Witness for C7: a populated cache slot short-circuits a concrete
load with no external calls. -/
theorem c7_loader_cached_per_kernel_witness :
    load_or_generate_kernel ⟨true, true, true⟩ ⟨1, 2, some ⟨1, 0, 2, 0, 0, 0⟩⟩
        5 [] = LoaderOutcome.ok ⟨1, 2, some ⟨1, 0, 2, 0, 0, 0⟩⟩ [] [] :=
  (c7_loader_cached_per_kernel ⟨true, true, true⟩
    ⟨1, 2, some ⟨1, 0, 2, 0, 0, 0⟩⟩ 5 []).1 rfl

/-- Claim C1: in a kernel launch, the shared-memory offsets of the local
pointer arguments (explicit ones first, then the automatic local
allocations) form the running total of the local sizes starting at 0;
each local argument's native argument is its offset (a
`NativeArg.localOffset`, not an address); with positive declared sizes
the offsets are strictly increasing, so no two local arguments overlap;
and the dynamic shared-memory byte size passed to the launch is the sum
of all local argument sizes. -/
theorem c1_shared_memory_layout (device : Device) (arg_info : List KernelArgInfo)
    (arguments local_arguments : List PoclArgument) (ps : List NativeArg)
    (total : Nat)
    (h : pocl_cuda_submit device arg_info arguments local_arguments
      = SubmitOutcome.launched ps total) :
    localParams ps
      = offsetsOf (localSizesOf (arg_info.zip arguments)
          ++ local_arguments.map PoclArgument.size)
    ∧ total
      = (localSizesOf (arg_info.zip arguments)
          ++ local_arguments.map PoclArgument.size).sum
    ∧ ((∀ x ∈ localSizesOf (arg_info.zip arguments)
          ++ local_arguments.map PoclArgument.size, 0 < x) →
        List.Pairwise (· < ·) (localParams ps))
    ∧ ps.drop (arg_info.zip arguments).length
      = ((offsetsOf (local_arguments.map PoclArgument.size)).map
          (· + (localSizesOf (arg_info.zip arguments)).sum)).map
          NativeArg.localOffset
    ∧ List.Forall₂
        (fun p ia => ia.1.type = pocl_argument_type.POINTER
            ∧ ia.1.is_local = true → ∃ off, p = NativeArg.localOffset off)
        (ps.take (arg_info.zip arguments).length) (arg_info.zip arguments) := by
  cases hm : marshalArgs device (arg_info.zip arguments) 0 with
  | none =>
      unfold pocl_cuda_submit at h
      rw [hm] at h
      dsimp only at h
      exact absurd h (by simp)
  | some pr =>
      obtain ⟨eps, shared⟩ := pr
      unfold pocl_cuda_submit at h
      rw [hm] at h
      dsimp only at h
      rw [marshalLocals_eq] at h
      dsimp only at h
      simp only [SubmitOutcome.launched.injEq] at h
      obtain ⟨hps, htot⟩ := h
      obtain ⟨he1, he2, he3⟩ :=
        marshalArgs_spec device (arg_info.zip arguments) 0 eps shared hm
      have he1a : localParams eps = offsetsOf (localSizesOf (arg_info.zip arguments)) := by
        rw [he1]
        simp
      have hsh : shared = (localSizesOf (arg_info.zip arguments)).sum := by
        omega
      have hlen : eps.length = (arg_info.zip arguments).length :=
        List.Forall₂.length_eq he3
      have hlp : localParams
          ((offsetsOf (local_arguments.map PoclArgument.size)).map
            (fun o => NativeArg.localOffset (o + shared)))
          = (offsetsOf (local_arguments.map PoclArgument.size)).map (· + shared) := by
        rw [show (fun o => NativeArg.localOffset (o + shared))
            = NativeArg.localOffset ∘ (· + shared) from rfl]
        rw [← List.map_map, localParams_map_localOffset]
      have hmain : localParams ps
          = offsetsOf (localSizesOf (arg_info.zip arguments)
              ++ local_arguments.map PoclArgument.size) := by
        rw [← hps, localParams_append, he1a, hlp, hsh, offsetsOf_append]
      refine ⟨hmain, ?_, ?_, ?_, ?_⟩
      · rw [List.sum_append]
        omega
      · intro hpos
        rw [hmain]
        exact offsetsOf_pairwise _ hpos
      · rw [← hps, ← hlen, List.drop_left, hsh, List.map_map]
        rfl
      · rw [← hps, ← hlen, List.take_left]
        exact he3

/-- Witness for C1: a concrete launch with two explicit local arguments
of sizes 4 and 12, one value argument between them, and one automatic
local allocation of size 16: offsets are 0, 4, 16; the shared-memory size
is 32; the offsets are strictly increasing. -/
theorem c1_shared_memory_layout_witness :
    localParams [NativeArg.localOffset 0, NativeArg.raw none,
        NativeArg.localOffset 4, NativeArg.localOffset 16]
      = offsetsOf (localSizesOf
          ([⟨pocl_argument_type.POINTER, true⟩, ⟨pocl_argument_type.NONE, false⟩,
            ⟨pocl_argument_type.POINTER, true⟩].zip
            ([⟨none, 4⟩, ⟨none, 8⟩, ⟨none, 12⟩] : List PoclArgument))
          ++ ([⟨none, 16⟩] : List PoclArgument).map PoclArgument.size)
    ∧ (32 : Nat)
      = (localSizesOf
          ([⟨pocl_argument_type.POINTER, true⟩, ⟨pocl_argument_type.NONE, false⟩,
            ⟨pocl_argument_type.POINTER, true⟩].zip
            ([⟨none, 4⟩, ⟨none, 8⟩, ⟨none, 12⟩] : List PoclArgument))
          ++ ([⟨none, 16⟩] : List PoclArgument).map PoclArgument.size).sum
    ∧ List.Pairwise (· < ·)
        (localParams [NativeArg.localOffset 0, NativeArg.raw none,
          NativeArg.localOffset 4, NativeArg.localOffset 16]) := by
  have h := c1_shared_memory_layout ⟨0, 0⟩
    [⟨pocl_argument_type.POINTER, true⟩, ⟨pocl_argument_type.NONE, false⟩,
     ⟨pocl_argument_type.POINTER, true⟩]
    ([⟨none, 4⟩, ⟨none, 8⟩, ⟨none, 12⟩] : List PoclArgument)
    ([⟨none, 16⟩] : List PoclArgument)
    [NativeArg.localOffset 0, NativeArg.raw none, NativeArg.localOffset 4,
     NativeArg.localOffset 16]
    32 (by decide)
  exact ⟨h.1, h.2.1, h.2.2.1 (by decide)⟩

end PoclCuda
